import Mathlib

/-!
Shallow embedding of the KAS trading bot (src/KASBOT.py) order-lifecycle
controller: the order book, state persistence (save_state / load_state),
the status-reconciliation partition and counter updates of check_orders,
the autobay rotation step, the order creator's append, the price-drop
trigger of run_bot, and the edge-triggered insufficient-funds flag.
Remote exchange calls are abstracted as explicit inputs (poll outcomes,
prices, balances, buy/sell results); prices and money are exact rationals.
-/

namespace KasBot

/-- An active sell order, mirroring the dict stored in `active_orders`
(KASBOT.py lines 278-284): id, amount, price, buy_price, order_type.
`order_type` is the string "autobay" or "bay" as in the source. -/
structure Order where
  id : Nat
  amount : ℚ
  price : ℚ
  buy_price : ℚ
  order_type : String
  deriving Repr, DecidableEq

/-- Outcome of a successful status poll (`order_status['status']`). -/
inductive OrderStatus
  | stillOpen
  | closed
  | canceled
  deriving Repr, DecidableEq

/-- Strategy constants from KASBOT.py lines 34-38. -/
def profit_percent : ℚ := 5 / 1000

def drop_percent : ℚ := 1 / 100

def order_size : ℚ := 15

/-- The persisted snapshot: the four keys save_state writes
(KASBOT.py lines 119-124). -/
structure SavedState where
  active_orders : List Order
  executed_orders_count : Nat
  total_profit : ℚ
  trading_stopped : Bool
  deriving Repr, DecidableEq

/-- The on-disk state file: missing, unparseable JSON, or a parsed snapshot. -/
inductive FileState
  | missing
  | malformed
  | good (s : SavedState)
  deriving Repr, DecidableEq

/-- save_state (KASBOT.py lines 113-144) as a function of the in-memory
state and the current file contents, returning the new file contents and
whether a write happened. Lines 116-118: skip the write when the state is
empty, zeroed, and trading is enabled. Lines 125-136: read the current
file, treating a missing or unreadable file as the empty dict (which never
equals a full snapshot). Lines 137-138: skip the write when the parsed
contents equal the new snapshot. Otherwise write the snapshot. -/
def save_state (active_orders : List Order) (executed_orders_count : Nat)
    (total_profit : ℚ) (trading_stopped : Bool) (file : FileState) :
    FileState × Bool :=
  if active_orders = [] ∧ executed_orders_count = 0 ∧ total_profit = 0 ∧
      trading_stopped = false then
    (file, false)
  else
    let new_state : SavedState :=
      ⟨active_orders, executed_orders_count, total_profit, trading_stopped⟩
    match file with
    | FileState.good current_state =>
        if current_state = new_state then (file, false)
        else (FileState.good new_state, true)
    | _ => (FileState.good new_state, true)

/-- load_state (KASBOT.py lines 146-167) as a function of the file contents
and the prior value of the global `trading_stopped`; returns
(active_orders, executed_orders_count, total_profit, trading_stopped).
A parse failure (lines 159-164) returns the empty tuple but leaves the
global `trading_stopped` untouched, since the exception is raised before
the assignment on line 152; only the missing-file branch (lines 165-167)
resets it to false. -/
def load_state (prev_trading_stopped : Bool) (file : FileState) :
    List Order × Nat × ℚ × Bool :=
  match file with
  | FileState.good s =>
      (s.active_orders, s.executed_orders_count, s.total_profit,
       s.trading_stopped)
  | FileState.malformed => ([], 0, 0, prev_trading_stopped)
  | FileState.missing => ([], 0, 0, false)

/-- Whether an order currently carries the autobay role
(`order.get('order_type') == 'autobay'`). -/
def isAutobay (o : Order) : Bool := o.order_type == "autobay"

/-- Number of orders in a list carrying the autobay role. -/
def countAutobay (l : List Order) : Nat := l.countP isAutobay

/-- The sort key used throughout the source:
`sort(key=lambda x: x.get('price', float('inf')))`. Every order in the
embedding has a price, so the key is just the price. -/
def priceRel (a b : Order) : Prop := a.price ≤ b.price

instance : DecidableRel priceRel := fun a b =>
  inferInstanceAs (Decidable (a.price ≤ b.price))

instance : IsTotal Order priceRel := ⟨fun a b => le_total a.price b.price⟩

instance : IsTrans Order priceRel :=
  ⟨fun _ _ _ hab hbc => le_trans hab hbc⟩

/-- Ascending stable sort by price; Python's `list.sort` is stable, as is
insertion sort with insertion before the first strictly-greater key. -/
def sortByPrice (l : List Order) : List Order := List.insertionSort priceRel l

/-- Outcome of the classification loop of check_orders
(KASBOT.py lines 312-334): the still-open orders kept in `updated_orders`
(poll failures included), the closed and canceled orders, whether a
closed/canceled order carried autobay (`autobay_needed`), and the count of
still-open autobay orders (`flagautobay`). -/
structure PartRes where
  updated : List Order
  closedOrders : List Order
  canceledOrders : List Order
  autobay_needed : Bool
  flagautobay : Nat
  deriving Repr, DecidableEq

/-- The classification loop of check_orders (KASBOT.py lines 312-334) over
the poll results, one `(order, status)` pair per active order, where
`none` is a failed poll (fetch_order_status returned `(order, None)`,
lines 297-303). Poll-failed orders are appended to `updated_orders`
without touching `flagautobay`; closed and canceled orders are collected
and flag `autobay_needed` when they carry autobay; remaining orders are
kept and counted in `flagautobay` when they carry autobay. -/
def partitionResults :
    List (Order × Option OrderStatus) → PartRes
  | [] => ⟨[], [], [], false, 0⟩
  | (o, st) :: rest =>
    let p := partitionResults rest
    match st with
    | none => { p with updated := o :: p.updated }
    | some OrderStatus.closed =>
        { p with closedOrders := o :: p.closedOrders,
                 autobay_needed := isAutobay o || p.autobay_needed }
    | some OrderStatus.canceled =>
        { p with canceledOrders := o :: p.canceledOrders,
                 autobay_needed := isAutobay o || p.autobay_needed }
    | some OrderStatus.stillOpen =>
        { p with updated := o :: p.updated,
                 flagautobay :=
                   (if isAutobay o then 1 else 0) + p.flagautobay }

/-- The closed-order accounting loop of check_orders (KASBOT.py lines
336-341): per closed order, profit = price*amount - buy_price*amount,
executed_orders_count goes up by one and total_profit by the profit. -/
def processClosed (closedOrders : List Order)
    (executed_orders_count : Nat) (total_profit : ℚ) : Nat × ℚ :=
  closedOrders.foldl
    (fun acc o =>
      (acc.1 + 1, acc.2 + (o.price * o.amount - o.buy_price * o.amount)))
    (executed_orders_count, total_profit)

/-- `updated_orders[0]['order_type'] = 'autobay'` (KASBOT.py line 372):
promote the head of the (sorted) list to autobay. -/
def setFirstAutobay : List Order → List Order
  | [] => []
  | o :: rest => { o with order_type := "autobay" } :: rest

/-- The demotion loop of check_orders (KASBOT.py lines 376-382): walk the
(sorted) list, keep the first order carrying autobay, and demote every
later autobay to "bay". The `first` argument is the `first_autobay`
flag. -/
def demoteExtras (first : Bool) : List Order → List Order
  | [] => []
  | o :: rest =>
    if isAutobay o then
      if first then o :: demoteExtras false rest
      else { o with order_type := "bay" } :: demoteExtras false rest
    else o :: demoteExtras first rest

/-- The rotation step of check_orders (KASBOT.py lines 368-382), applied
to the still-open set when trading is enabled: with no still-open autobay
and a non-empty set, sort and promote the head; with more than one
still-open autobay, sort and demote all but the first; otherwise leave the
list untouched. -/
def rotate (trading_stopped : Bool) (flagautobay : Nat)
    (updated : List Order) : List Order :=
  if trading_stopped then updated
  else if flagautobay = 0 ∧ updated ≠ [] then
    setFirstAutobay (sortByPrice updated)
  else if flagautobay > 1 then
    demoteExtras true (sortByPrice updated)
  else updated

/-- The first active order carrying autobay, as selected by
`next((o for o in active_orders if o.get("order_type") == "autobay"), None)`
in run_bot (KASBOT.py line 449). -/
def find_autobay (l : List Order) : Option Order := l.find? isAutobay

/-- The price-drop trigger of run_bot (KASBOT.py lines 449-460): with an
autobay order present, the current price at or below
`buy_price * (1 - drop_percent)`, trading enabled, and balance at least
the order size, the bot demotes the autobay and creates a replacement.
Returns whether that action fires. -/
def priceDropFires (active_orders : List Order)
    (current_price available_balance : ℚ) (trading_stopped : Bool) :
    Bool :=
  match find_autobay active_orders with
  | none => false
  | some autobay_order =>
    if current_price ≤ autobay_order.buy_price * (1 - drop_percent) ∧
        trading_stopped = false then
      available_balance ≥ order_size
    else false

/-- The environment of one create_new_order call (KASBOT.py lines
247-289): the remote reads and trade results. `buy_result` is what
create_buy_order returns on success, the pair
(bought_amount, actual_buy_price); `sell_id` is the id of the limit sell
when create_sell_order succeeds. `none` is a failed call. -/
structure CreateEnv where
  current_price : ℚ
  available_balance : ℚ
  buy_result : Option (ℚ × ℚ)
  sell_id : Option Nat
  deriving Repr, DecidableEq

/-- create_new_order (KASBOT.py lines 247-289) with the remote calls
abstracted into `env`. Insufficient balance (lines 254-260) or a failed
buy (lines 264-266) or a failed sell (lines 285-287) leave the book
untouched; on success the new sell order, priced at
`actual_buy_price * (1 + profit_percent)`, is appended at the end of
`active_orders` (lines 276-284). The counters are returned unchanged in
every branch. -/
def create_new_order (env : CreateEnv) (active_orders : List Order)
    (executed_orders_count : Nat) (total_profit : ℚ)
    (order_type : String) : List Order × Nat × ℚ :=
  if env.available_balance < order_size then
    (active_orders, executed_orders_count, total_profit)
  else
    match env.buy_result with
    | none => (active_orders, executed_orders_count, total_profit)
    | some (bought_amount, actual_buy_price) =>
      let sell_price := actual_buy_price * (1 + profit_percent)
      match env.sell_id with
      | none => (active_orders, executed_orders_count, total_profit)
      | some sid =>
          (active_orders ++
            [⟨sid, bought_amount, sell_price, actual_buy_price,
              order_type⟩],
           executed_orders_count, total_profit)

/-- The cancellation notifications emitted by the canceled-order loop
(KASBOT.py lines 356-358), one per canceled order, identified by id. -/
def cancelNotifications (canceledOrders : List Order) : List Nat :=
  canceledOrders.map (fun o => o.id)

/-- The balance check guarding order creation (KASBOT.py lines 254-262)
and the price-drop path (lines 461-466), acting on the global
`insufficient_funds_notified`: when the balance is below the order size
the notification is emitted only if the flag is clear, and the flag is
set; when the balance suffices the flag is cleared and nothing is
emitted. Returns (new flag, emitted). -/
def checkBalanceStep (notified : Bool) (available_balance : ℚ) :
    Bool × Bool :=
  if available_balance < order_size then (true, !notified)
  else (false, false)

/-- The per-tick emission trace of the insufficient-funds notification
over a sequence of observed balances, threading the
`insufficient_funds_notified` flag through `checkBalanceStep`. -/
def notifSeq (notified : Bool) : List ℚ → List Bool
  | [] => []
  | b :: rest =>
    let s := checkBalanceStep notified b
    s.2 :: notifSeq s.1 rest

end KasBot

namespace KasBot

lemma sortByPrice_perm (l : List Order) : (sortByPrice l).Perm l :=
  List.perm_insertionSort priceRel l

lemma sorted_sortByPrice (l : List Order) :
    (sortByPrice l).Pairwise (fun a b => a.price ≤ b.price) := by
  have h := List.sorted_insertionSort priceRel l
  exact h.imp (fun hab => hab)

lemma countAutobay_sortByPrice (l : List Order) :
    countAutobay (sortByPrice l) = countAutobay l :=
  (sortByPrice_perm l).countP_eq isAutobay

/-- With every poll successful, `flagautobay` counts exactly the autobay
orders among the surviving still-open set. -/
lemma flagautobay_eq_countAutobay
    (results : List (Order × Option OrderStatus))
    (h : ∀ r ∈ results, r.2 ≠ none) :
    (partitionResults results).flagautobay =
      countAutobay (partitionResults results).updated := by
  induction results with
  | nil => rfl
  | cons r rest ih =>
    obtain ⟨o, st⟩ := r
    have hrest := ih (fun x hx => h x (List.mem_cons_of_mem _ hx))
    cases st with
    | none => exact absurd rfl (h (o, none) (List.mem_cons_self _ _))
    | some s =>
      cases s with
      | stillOpen =>
          simp only [partitionResults, countAutobay, List.countP_cons]
            at hrest ⊢
          omega
      | closed => simpa [partitionResults] using hrest
      | canceled => simpa [partitionResults] using hrest

lemma countAutobay_setFirstAutobay (o : Order) (rest : List Order) :
    countAutobay (setFirstAutobay (o :: rest)) = countAutobay rest + 1 := by
  simp [setFirstAutobay, countAutobay, List.countP_cons, isAutobay]

/-- After the demotion loop has seen its first autobay, every remaining
order is demoted: nothing in `demoteExtras false l` carries autobay. -/
lemma not_isAutobay_demoteExtras_false (l : List Order) :
    ∀ o ∈ demoteExtras false l, ¬ isAutobay o := by
  induction l with
  | nil => simp [demoteExtras]
  | cons a rest ih =>
    intro o ho
    by_cases ha : isAutobay a
    · rw [demoteExtras, if_pos ha] at ho
      rcases List.mem_cons.mp ho with h1 | h1
      · subst h1; simp [isAutobay]
      · exact ih o h1
    · rw [demoteExtras, if_neg ha] at ho
      rcases List.mem_cons.mp ho with h1 | h1
      · subst h1; exact ha
      · exact ih o h1

lemma countAutobay_demoteExtras_true (l : List Order)
    (h : 0 < countAutobay l) :
    countAutobay (demoteExtras true l) = 1 := by
  induction l with
  | nil => simp [countAutobay] at h
  | cons a rest ih =>
    by_cases ha : isAutobay a
    · have h0 : countAutobay (demoteExtras false rest) = 0 :=
        List.countP_eq_zero.mpr (not_isAutobay_demoteExtras_false rest)
      rw [demoteExtras, if_pos ha, if_pos rfl]
      simp only [countAutobay] at h0 ⊢
      rw [List.countP_cons_of_pos _ _ ha, h0]
    · have h' : 0 < countAutobay rest := by
        simpa [countAutobay, List.countP_cons, ha] using h
      rw [demoteExtras, if_neg ha]
      simp only [countAutobay] at ih ⊢
      rw [List.countP_cons_of_neg _ _ ha, ih h']

/-- On a price-sorted list, the autobay order surviving the demotion loop
is at least as cheap as every autobay order of the input. -/
lemma demoteExtras_true_cheapest (l : List Order)
    (hs : l.Pairwise (fun a b => a.price ≤ b.price)) :
    ∀ o ∈ demoteExtras true l, isAutobay o →
      ∀ o' ∈ l, isAutobay o' → o.price ≤ o'.price := by
  induction l with
  | nil => simp [demoteExtras]
  | cons a rest ih =>
    have hpair := List.pairwise_cons.mp hs
    intro o ho hoA o' ho' ho'A
    by_cases ha : isAutobay a
    · rw [demoteExtras, if_pos ha] at ho
      rcases List.mem_cons.mp ho with h1 | h1
      · subst h1
        rcases List.mem_cons.mp ho' with h2 | h2
        · subst h2; exact le_refl _
        · exact hpair.1 o' h2
      · exact absurd hoA (not_isAutobay_demoteExtras_false rest o h1)
    · rw [demoteExtras, if_neg ha] at ho
      rcases List.mem_cons.mp ho with h1 | h1
      · subst h1; exact absurd hoA ha
      · rcases List.mem_cons.mp ho' with h2 | h2
        · subst h2; exact absurd ho'A ha
        · exact ih hpair.2 o h1 hoA o' h2 ho'A

/-- A list whose count of elements satisfying `p` is one has a unique
member satisfying `p`. -/
lemma countP_eq_one_unique {α : Type} {p : α → Bool} {l : List α}
    (h : l.countP p = 1) :
    ∀ o ∈ l, p o → ∀ o' ∈ l, p o' → o = o' := by
  intro o ho hpo o' ho' hpo'
  have h1 : (l.filter p).length = 1 := by
    rw [← List.countP_eq_length_filter]; exact h
  obtain ⟨a, ha⟩ := List.length_eq_one.mp h1
  have h2 : o ∈ l.filter p := List.mem_filter.mpr ⟨ho, hpo⟩
  have h3 : o' ∈ l.filter p := List.mem_filter.mpr ⟨ho', hpo'⟩
  rw [ha, List.mem_singleton] at h2 h3
  rw [h2, h3]

/-- The closed orders collected by the classification loop are exactly
the polled orders whose status came back closed, in order. -/
lemma partition_closed_eq (results : List (Order × Option OrderStatus)) :
    (partitionResults results).closedOrders =
      (results.filter (fun r => r.2 == some OrderStatus.closed)).map
        Prod.fst := by
  induction results with
  | nil => rfl
  | cons r rest ih =>
    obtain ⟨o, st⟩ := r
    cases st with
    | none => simpa [partitionResults] using ih
    | some s => cases s <;> simpa [partitionResults] using ih

/-- The canceled orders collected by the classification loop are exactly
the polled orders whose status came back canceled, in order. -/
lemma partition_canceled_eq (results : List (Order × Option OrderStatus)) :
    (partitionResults results).canceledOrders =
      (results.filter (fun r => r.2 == some OrderStatus.canceled)).map
        Prod.fst := by
  induction results with
  | nil => rfl
  | cons r rest ih =>
    obtain ⟨o, st⟩ := r
    cases st with
    | none => simpa [partitionResults] using ih
    | some s => cases s <;> simpa [partitionResults] using ih

/-- The surviving still-open set is exactly the orders whose poll failed
or came back open, in order. -/
lemma partition_updated_eq (results : List (Order × Option OrderStatus)) :
    (partitionResults results).updated =
      (results.filter (fun r =>
        r.2 == (none : Option OrderStatus) ||
          r.2 == some OrderStatus.stillOpen)).map Prod.fst := by
  induction results with
  | nil => rfl
  | cons r rest ih =>
    obtain ⟨o, st⟩ := r
    cases st with
    | none => simpa [partitionResults] using ih
    | some s => cases s <;> simpa [partitionResults] using ih

/-- Closed-form value of the closed-order accounting loop. -/
lemma processClosed_spec (l : List Order) (count : Nat) (profit : ℚ) :
    processClosed l count profit =
      (count + l.length,
       profit +
         (l.map (fun o =>
           o.price * o.amount - o.buy_price * o.amount)).sum) := by
  induction l generalizing count profit with
  | nil => simp [processClosed]
  | cons o t ih =>
    show processClosed t (count + 1) _ = _
    rw [ih]
    refine Prod.ext ?_ ?_ <;> simp <;> ring

lemma notifSeq_length (flag : Bool) (bs : List ℚ) :
    (notifSeq flag bs).length = bs.length := by
  induction bs generalizing flag with
  | nil => rfl
  | cons b rest ih => simp [notifSeq, ih]

/-- Value of the emission trace at a position: a notification fires there
exactly when the balance is insufficient at that tick and the flag
entering the tick is clear — and the flag entering tick `j > 0` is
exactly whether tick `j - 1` was insufficient. -/
lemma notifSeq_getD (flag : Bool) (bs : List ℚ) (j : Nat)
    (hj : j < bs.length) :
    (notifSeq flag bs).getD j false =
      ((if j = 0 then !flag
        else decide (order_size ≤ bs.getD (j - 1) 0)) &&
        decide (bs.getD j 0 < order_size)) := by
  induction bs generalizing flag j with
  | nil => simp at hj
  | cons b rest ih =>
    cases j with
    | zero =>
        by_cases hb : b < order_size
        · simp [notifSeq, checkBalanceStep, hb]
        · simp [notifSeq, checkBalanceStep, hb]
    | succ k =>
        have hk : k < rest.length := by simpa using hj
        have hstep :
            notifSeq flag (b :: rest) =
              (checkBalanceStep flag b).2 ::
                notifSeq (checkBalanceStep flag b).1 rest := rfl
        rw [hstep]
        have := ih (checkBalanceStep flag b).1 k hk
        simp only [List.getD_cons_succ]
        rw [this]
        cases k with
        | zero =>
            by_cases hb : b < order_size
            · simp [checkBalanceStep, hb, not_lt.mpr, not_lt]
            · simp [checkBalanceStep, hb, not_lt.mp (hb), not_lt]
        | succ m => simp

/-- C1 counterexample: with still-open orders priced 0.05 (bay), 0.07
(autobay) and 0.08 (autobay) and trading enabled, the rotation step keeps
the 0.07 order as the sole autobay — the cheapest among the orders that
carried autobay, not the cheapest of the whole surviving set (0.05). The
claimed invariant "exactly one autobay and it is the cheapest-priced among
all surviving orders" is therefore false. -/
theorem rotation_not_cheapest_of_all :
    let results : List (Order × Option OrderStatus) :=
      [(⟨1, 1, 5, 4, "bay"⟩, some OrderStatus.stillOpen),
       (⟨2, 1, 7, 6, "autobay"⟩, some OrderStatus.stillOpen),
       (⟨3, 1, 8, 7, "autobay"⟩, some OrderStatus.stillOpen)]
    let p := partitionResults results
    let res := rotate false p.flagautobay p.updated
    ¬(countAutobay res = 1 ∧
        ∀ o ∈ res, isAutobay o → ∀ o' ∈ res, o.price ≤ o'.price) := by
  decide

/-- C1 amended: after the rotation step of check_orders with trading
enabled, a non-empty surviving still-open set, and every status poll
successful, exactly one surviving order carries the autobay role; that
order is the cheapest-priced among the surviving orders that carried
autobay before rotation, and, when none carried it before rotation, the
cheapest-priced of the whole surviving set. (A failed poll of an autobay
order is not counted in flagautobay, so without the all-polls-successful
hypothesis even uniqueness can fail.) -/
theorem rotation_exactly_one_autobay
    (results : List (Order × Option OrderStatus))
    (hall : ∀ r ∈ results, r.2 ≠ none)
    (hne : (partitionResults results).updated ≠ []) :
    countAutobay
        (rotate false (partitionResults results).flagautobay
          (partitionResults results).updated) = 1 ∧
      ∀ o ∈ rotate false (partitionResults results).flagautobay
          (partitionResults results).updated,
        isAutobay o →
          (∀ o' ∈ (partitionResults results).updated, isAutobay o' →
            o.price ≤ o'.price) ∧
          ((partitionResults results).flagautobay = 0 →
            ∀ o' ∈ rotate false (partitionResults results).flagautobay
                (partitionResults results).updated,
              o.price ≤ o'.price) := by
  have hflag := flagautobay_eq_countAutobay results hall
  set u := (partitionResults results).updated with hu
  set f := (partitionResults results).flagautobay with hf
  rcases Nat.eq_zero_or_pos f with hf0 | hfpos
  · -- no still-open autobay: sort and promote the head
    have hcu : countAutobay u = 0 := by omega
    have hres : rotate false f u = setFirstAutobay (sortByPrice u) := by
      rw [rotate, if_neg (by simp), if_pos ⟨hf0, hne⟩]
    have hsne : sortByPrice u ≠ [] := by
      intro hnil
      have hp := (sortByPrice_perm u).symm
      rw [hnil] at hp
      exact hne hp.eq_nil
    obtain ⟨a, t, hat⟩ := List.exists_cons_of_ne_nil hsne
    have hcs : countAutobay (sortByPrice u) = 0 := by
      rw [countAutobay_sortByPrice]; exact hcu
    have hct : countAutobay t = 0 := by
      rw [hat] at hcs
      simp only [countAutobay, List.countP_cons] at hcs
      simp only [countAutobay]
      omega
    have hsorted := sorted_sortByPrice u
    rw [hat] at hsorted
    have hpair := List.pairwise_cons.mp hsorted
    have hform : setFirstAutobay (sortByPrice u) =
        { a with order_type := "autobay" } :: t := by
      rw [hat]; rfl
    constructor
    · rw [hres, hform]
      simp only [countAutobay, List.countP_cons]
      simp only [countAutobay] at hct
      simp [hct, isAutobay]
    · intro o ho hoA
      rw [hres, hform] at ho
      rcases List.mem_cons.mp ho with h1 | h1
      · constructor
        · intro o' ho' ho'A
          exact absurd ho'A (List.countP_eq_zero.mp hcu o' ho')
        · intro _ o' ho'
          rw [hres, hform] at ho'
          rcases List.mem_cons.mp ho' with h2 | h2
          · rw [h1, h2]
          · have : a.price ≤ o'.price := hpair.1 o' h2
            rw [h1]; exact this
      · exact absurd hoA (List.countP_eq_zero.mp hct o h1)
  · rcases Nat.lt_or_ge 1 f with hfgt | hfle
    · -- more than one still-open autobay: sort and demote the extras
      have hres : rotate false f u = demoteExtras true (sortByPrice u) := by
        rw [rotate, if_neg (by simp), if_neg (by omega), if_pos hfgt]
      have hcs : 0 < countAutobay (sortByPrice u) := by
        rw [countAutobay_sortByPrice]; omega
      constructor
      · rw [hres]
        exact countAutobay_demoteExtras_true _ hcs
      · intro o ho hoA
        rw [hres] at ho
        constructor
        · intro o' ho' ho'A
          exact demoteExtras_true_cheapest _ (sorted_sortByPrice u) o ho
            hoA o' ((sortByPrice_perm u).symm.mem_iff.mp ho') ho'A
        · intro h0; omega
    · -- exactly one still-open autobay: the list is left untouched
      have hf1 : f = 1 := by omega
      have hres : rotate false f u = u := by
        rw [rotate, if_neg (by simp), if_neg (by omega), if_neg (by omega)]
      have hcu : countAutobay u = 1 := by omega
      constructor
      · rw [hres]; exact hcu
      · intro o ho hoA
        rw [hres] at ho
        constructor
        · intro o' ho' ho'A
          have := countP_eq_one_unique hcu o ho hoA o' ho' ho'A
          rw [this]
        · intro h0; omega

/-- C1 witness: a single surviving bay order with all polls successful is
promoted to the sole, cheapest autobay. -/
theorem rotation_exactly_one_autobay_witness :
    (∀ r ∈ [((⟨1, 1, 7, 6, "bay"⟩ : Order),
        some OrderStatus.stillOpen)], r.2 ≠ none) ∧
      (partitionResults [((⟨1, 1, 7, 6, "bay"⟩ : Order),
        some OrderStatus.stillOpen)]).updated ≠ [] ∧
      (countAutobay
          (rotate false
            (partitionResults [((⟨1, 1, 7, 6, "bay"⟩ : Order),
              some OrderStatus.stillOpen)]).flagautobay
            (partitionResults [((⟨1, 1, 7, 6, "bay"⟩ : Order),
              some OrderStatus.stillOpen)]).updated) = 1 ∧
        ∀ o ∈ rotate false
            (partitionResults [((⟨1, 1, 7, 6, "bay"⟩ : Order),
              some OrderStatus.stillOpen)]).flagautobay
            (partitionResults [((⟨1, 1, 7, 6, "bay"⟩ : Order),
              some OrderStatus.stillOpen)]).updated,
          isAutobay o →
            (∀ o' ∈ (partitionResults
                [((⟨1, 1, 7, 6, "bay"⟩ : Order),
                  some OrderStatus.stillOpen)]).updated, isAutobay o' →
              o.price ≤ o'.price) ∧
            ((partitionResults [((⟨1, 1, 7, 6, "bay"⟩ : Order),
                some OrderStatus.stillOpen)]).flagautobay = 0 →
              ∀ o' ∈ rotate false
                  (partitionResults
                    [((⟨1, 1, 7, 6, "bay"⟩ : Order),
                      some OrderStatus.stillOpen)]).flagautobay
                  (partitionResults
                    [((⟨1, 1, 7, 6, "bay"⟩ : Order),
                      some OrderStatus.stillOpen)]).updated,
                o.price ≤ o'.price)) :=
  ⟨by decide, by decide,
   rotation_exactly_one_autobay
     [((⟨1, 1, 7, 6, "bay"⟩ : Order), some OrderStatus.stillOpen)]
     (by decide) (by decide)⟩

/-- C6: persisting a snapshot when the on-disk file already holds exactly
that snapshot performs no write and leaves the file unchanged. -/
theorem save_state_idempotent (active_orders : List Order)
    (executed_orders_count : Nat) (total_profit : ℚ)
    (trading_stopped : Bool) :
    save_state active_orders executed_orders_count total_profit
      trading_stopped
      (FileState.good
        ⟨active_orders, executed_orders_count, total_profit,
         trading_stopped⟩) =
      (FileState.good
        ⟨active_orders, executed_orders_count, total_profit,
         trading_stopped⟩, false) := by
  unfold save_state
  split
  · rfl
  · simp

/-- C10: saving the empty, zeroed, trading-enabled state performs no write
and leaves any on-disk contents unchanged. -/
theorem save_state_empty_no_write (file : FileState) :
    save_state [] 0 0 false file = (file, false) := by
  unfold save_state
  simp

/-- C7 counterexample: save-then-load is not a round trip for every book.
Saving the empty, zeroed, trading-enabled book over a file that holds a
different snapshot writes nothing, so the subsequent load returns the old
snapshot, not the book that was saved. -/
theorem save_load_not_round_trip :
    let oldSnap : SavedState := ⟨[⟨7, 1, 2, 1, "bay"⟩], 3, 5, true⟩
    load_state false
        (save_state [] 0 0 false (FileState.good oldSnap)).1 ≠
      ([], 0, 0, false) := by
  decide

/-- C7 amended: for every book that is not the empty, zeroed,
trading-enabled snapshot, saving over any file contents and then loading
returns exactly the book that was saved, field for field. -/
theorem save_load_round_trip (active_orders : List Order)
    (executed_orders_count : Nat) (total_profit : ℚ)
    (trading_stopped : Bool) (file : FileState)
    (h : ¬(active_orders = [] ∧ executed_orders_count = 0 ∧
        total_profit = 0 ∧ trading_stopped = false)) :
    load_state trading_stopped
        (save_state active_orders executed_orders_count total_profit
          trading_stopped file).1 =
      (active_orders, executed_orders_count, total_profit,
       trading_stopped) := by
  unfold save_state
  rw [if_neg h]
  match file with
  | FileState.good current_state =>
      by_cases hc : current_state =
        (⟨active_orders, executed_orders_count, total_profit,
          trading_stopped⟩ : SavedState)
      · simp only [hc, if_pos rfl]
        simp [load_state, hc]
      · simp only [if_neg hc]
        simp [load_state]
  | FileState.malformed => simp [load_state]
  | FileState.missing => simp [load_state]

/-- C7 witness: a concrete non-empty book round-trips through save and
load over a file holding unrelated contents. -/
theorem save_load_round_trip_witness :
    ¬(([⟨4, 10, 3, 2, "autobay"⟩] : List Order) = [] ∧ (2 : Nat) = 0 ∧
        (7 : ℚ) = 0 ∧ false = false) ∧
      load_state false
          (save_state [⟨4, 10, 3, 2, "autobay"⟩] 2 7 false
            FileState.malformed).1 =
        ([⟨4, 10, 3, 2, "autobay"⟩], 2, 7, false) :=
  ⟨by decide,
   save_load_round_trip [⟨4, 10, 3, 2, "autobay"⟩] 2 7 false
     FileState.malformed (by decide)⟩

/-- C9 counterexample: loading a malformed file does not re-enable
trading. With the prior trading flag stopped, load_state returns the
zeroed orders and counters but keeps trading_stopped = true, because the
parse failure is raised before the assignment to the flag. -/
theorem load_state_malformed_keeps_flag :
    load_state true FileState.malformed ≠ ([], 0, 0, false) ∧
      load_state true FileState.malformed = ([], 0, 0, true) := by
  constructor
  · decide
  · rfl

/-- C9 amended: loading a missing file returns the empty default state
with trading enabled; loading a malformed file returns empty orders and
zeroed counters without raising, but leaves the trading flag at its
previous value (it is reset only in the missing-file branch). -/
theorem load_state_defaults (prev : Bool) :
    load_state prev FileState.missing = ([], 0, 0, false) ∧
      load_state prev FileState.malformed = ([], 0, 0, prev) :=
  ⟨rfl, rfl⟩

/-- C2: per reconciliation pass, executed_orders_count goes up by exactly
the number of closed orders and total_profit by the sum of
`(price - buy_price) * amount` over exactly those orders — the two
counters are functions of the closed set alone, so they change together
and only for closed orders. Canceled orders are exactly the
canceled-status polls, each emits one cancellation notification, and the
surviving set holds exactly the failed and still-open polls, so a
canceled order is dropped without touching either counter. The spec's
example order (buy 0.069, sell 0.06935, amount 217.39) contributes
exactly one execution and 0.06935*217.39 - 0.069*217.39 profit. -/
theorem check_orders_closed_accounting
    (results : List (Order × Option OrderStatus))
    (count : Nat) (profit : ℚ) :
    (processClosed (partitionResults results).closedOrders count
        profit).1 =
      count + (partitionResults results).closedOrders.length ∧
    (processClosed (partitionResults results).closedOrders count
        profit).2 =
      profit +
        ((partitionResults results).closedOrders.map (fun o =>
          o.price * o.amount - o.buy_price * o.amount)).sum ∧
    (partitionResults results).closedOrders =
      (results.filter (fun r => r.2 == some OrderStatus.closed)).map
        Prod.fst ∧
    (partitionResults results).canceledOrders =
      (results.filter (fun r => r.2 == some OrderStatus.canceled)).map
        Prod.fst ∧
    (cancelNotifications (partitionResults results).canceledOrders).length =
      (partitionResults results).canceledOrders.length ∧
    (partitionResults results).updated =
      (results.filter (fun r =>
        r.2 == (none : Option OrderStatus) ||
          r.2 == some OrderStatus.stillOpen)).map Prod.fst ∧
    processClosed [⟨9, 21739/100, 6935/100000, 69/1000, "bay"⟩] 0 0 =
      (1, 6935/100000 * (21739/100) - 69/1000 * (21739/100)) := by
  refine ⟨?_, ?_, partition_closed_eq results, partition_canceled_eq results,
    ?_, partition_updated_eq results, ?_⟩
  · rw [processClosed_spec]
  · rw [processClosed_spec]
  · simp [cancelNotifications]
  · simp [processClosed]

/-- C8: an order whose status poll failed is kept in the surviving
still-open set (hence polled again next tick), and the closed and
canceled sets contain only orders whose poll actually returned closed or
canceled — a poll failure can never drop an order or feed the
counters. -/
theorem poll_failed_kept_still_open
    (results : List (Order × Option OrderStatus)) (o : Order)
    (h : (o, (none : Option OrderStatus)) ∈ results) :
    o ∈ (partitionResults results).updated ∧
    (∀ x ∈ (partitionResults results).closedOrders,
      ∃ r ∈ results, r.1 = x ∧ r.2 = some OrderStatus.closed) ∧
    (∀ x ∈ (partitionResults results).canceledOrders,
      ∃ r ∈ results, r.1 = x ∧ r.2 = some OrderStatus.canceled) := by
  refine ⟨?_, ?_, ?_⟩
  · rw [partition_updated_eq]
    exact List.mem_map.mpr ⟨(o, none),
      List.mem_filter.mpr ⟨h, by simp⟩, rfl⟩
  · intro x hx
    rw [partition_closed_eq] at hx
    obtain ⟨r, hr, hrx⟩ := List.mem_map.mp hx
    have hf := List.mem_filter.mp hr
    refine ⟨r, hf.1, hrx, ?_⟩
    simpa using hf.2
  · intro x hx
    rw [partition_canceled_eq] at hx
    obtain ⟨r, hr, hrx⟩ := List.mem_map.mp hx
    have hf := List.mem_filter.mp hr
    refine ⟨r, hf.1, hrx, ?_⟩
    simpa using hf.2

/-- C3: the price-drop action of run_bot fires exactly when an autobay
order exists, trading is enabled, the current price is at most
`buy_price * (1 - drop_percent)`, and the balance covers the order size;
with buy price 0.07 and threshold 1%, price 0.0693 fires the trigger and
price 0.0694 does not. -/
theorem price_drop_trigger :
    (∀ (active_orders : List Order)
        (current_price available_balance : ℚ) (trading_stopped : Bool),
      priceDropFires active_orders current_price available_balance
          trading_stopped = true ↔
        ∃ autobay_order,
          find_autobay active_orders = some autobay_order ∧
          trading_stopped = false ∧
          current_price ≤
            autobay_order.buy_price * (1 - drop_percent) ∧
          order_size ≤ available_balance) ∧
    priceDropFires [⟨1, 1, 703/10000, 7/100, "autobay"⟩] (693/10000) 20
      false = true ∧
    priceDropFires [⟨1, 1, 703/10000, 7/100, "autobay"⟩] (694/10000) 20
      false = false := by
  refine ⟨?_, ?_, ?_⟩
  · intro active_orders current_price available_balance trading_stopped
    constructor
    · intro h
      unfold priceDropFires at h
      cases hfa : find_autobay active_orders with
      | none => rw [hfa] at h; exact absurd h (by simp)
      | some ab =>
          rw [hfa] at h
          dsimp only at h
          by_cases hc : current_price ≤
              ab.buy_price * (1 - drop_percent) ∧ trading_stopped = false
          · rw [if_pos hc] at h
            exact ⟨ab, rfl, hc.2, hc.1, by simpa using h⟩
          · rw [if_neg hc] at h
            exact absurd h (by simp)
    · rintro ⟨ab, hfa, hts, hle, hbal⟩
      unfold priceDropFires
      rw [hfa]
      dsimp only
      rw [if_pos ⟨hle, hts⟩]
      simpa using hbal
  · norm_num [priceDropFires, find_autobay, List.find?, isAutobay,
      drop_percent, order_size]
  · norm_num [priceDropFires, find_autobay, List.find?, isAutobay,
      drop_percent, order_size]

/-- C4: across any stretch of N consecutive insufficient-balance checks
that starts fresh (start of the trace with a clear flag, or right after a
sufficient check), the insufficient-funds notification is emitted exactly
once, on the first check of the stretch; and any two emissions are
separated by an intervening sufficient check. -/
theorem insufficient_funds_edge (flag0 : Bool) (bs : List ℚ) (i N : Nat)
    (hN : 1 ≤ N) (hrange : i + N ≤ bs.length)
    (hstart : (i = 0 ∧ flag0 = false) ∨
      (0 < i ∧ order_size ≤ bs.getD (i - 1) 0))
    (hins : ∀ k, k < N → bs.getD (i + k) 0 < order_size) :
    ((notifSeq flag0 bs).getD i false = true ∧
      ∀ j, i < j → j < i + N →
        (notifSeq flag0 bs).getD j false = false) ∧
    ∀ p q, p < q → q < bs.length →
      (notifSeq flag0 bs).getD p false = true →
      (notifSeq flag0 bs).getD q false = true →
      ∃ k, p ≤ k ∧ k < q ∧ order_size ≤ bs.getD k 0 := by
  have hi : i < bs.length := by omega
  refine ⟨⟨?_, ?_⟩, ?_⟩
  · rw [notifSeq_getD flag0 bs i hi]
    have hbi : bs.getD i 0 < order_size := by
      have := hins 0 (by omega)
      simpa using this
    rcases hstart with ⟨hi0, hf0⟩ | ⟨hipos, hsuf⟩
    · rw [if_pos hi0, hf0]
      simp only [Bool.not_false, Bool.true_and, decide_eq_true_eq]
      exact hbi
    · rw [if_neg (by omega)]
      simp only [Bool.and_eq_true, decide_eq_true_eq]
      exact ⟨hsuf, hbi⟩
  · intro j hij hjN
    have hjlen : j < bs.length := by omega
    rw [notifSeq_getD flag0 bs j hjlen]
    have hj0 : ¬ j = 0 := by omega
    have hprev : bs.getD (j - 1) 0 < order_size := by
      have := hins (j - 1 - i) (by omega)
      have heq : i + (j - 1 - i) = j - 1 := by omega
      rwa [heq] at this
    rw [if_neg hj0]
    have hfac : decide (order_size ≤ bs.getD (j - 1) 0) = false := by
      simp only [decide_eq_false_iff_not]
      exact not_le.mpr hprev
    rw [hfac, Bool.false_and]
  · intro p q hpq hqlen hp hq
    rw [notifSeq_getD flag0 bs q hqlen] at hq
    have hq0 : ¬ q = 0 := by omega
    rw [if_neg hq0] at hq
    simp only [Bool.and_eq_true, decide_eq_true_eq] at hq
    exact ⟨q - 1, by omega, by omega, hq.1⟩

/-- C4 witness: with balances 1, 2, 20, 3 against order size 15, the
stretch of the two opening insufficient ticks notifies exactly once, on
the first tick. -/
theorem insufficient_funds_edge_witness :
    ((1 : Nat) ≤ 2 ∧ (0 : Nat) + 2 ≤ ([1, 2, 20, 3] : List ℚ).length ∧
      (((0 : Nat) = 0 ∧ false = false) ∨
        (0 < (0 : Nat) ∧
          order_size ≤ ([1, 2, 20, 3] : List ℚ).getD (0 - 1) 0)) ∧
      (∀ k, k < 2 →
        ([1, 2, 20, 3] : List ℚ).getD (0 + k) 0 < order_size)) ∧
    (((notifSeq false [1, 2, 20, 3]).getD 0 false = true ∧
        ∀ j, 0 < j → j < 0 + 2 →
          (notifSeq false [1, 2, 20, 3]).getD j false = false) ∧
      ∀ p q, p < q → q < ([1, 2, 20, 3] : List ℚ).length →
        (notifSeq false [1, 2, 20, 3]).getD p false = true →
        (notifSeq false [1, 2, 20, 3]).getD q false = true →
        ∃ k, p ≤ k ∧ k < q ∧
          order_size ≤ ([1, 2, 20, 3] : List ℚ).getD k 0) :=
  ⟨⟨by decide, by decide, by decide, by decide⟩,
   insufficient_funds_edge false [1, 2, 20, 3] 0 2 (by decide) (by decide)
     (by decide) (by decide)⟩

/-- C5 counterexample: the append performed by create_new_order does not
keep the active-orders list price-sorted. Starting from the sorted book
[price 8] and a successful buy at 6 (sell price 6 * 1.005 = 6.03), the
resulting book is [8, 6.03], which is not ascending — and this is the
very list passed to save_state on the buy-command path before any
re-sort. -/
theorem create_order_breaks_sort :
    let env : CreateEnv := ⟨7, 20, some (2, 6), some 2⟩
    let before : List Order := [⟨1, 1, 8, 8, "bay"⟩]
    List.Pairwise (fun a b : Order => a.price ≤ b.price) before ∧
      ¬ List.Pairwise (fun a b : Order => a.price ≤ b.price)
          (create_new_order env before 0 0 "bay").1 := by
  constructor
  · simp
  · norm_num [create_new_order, order_size, profit_percent]

/-- C5 amended: every mutation of the active-orders collection by the
order creator is an append at the tail (or no change on failure); the
append does not maintain price order, so a state observed right after it
(for instance the save on the buy-command path) need not be sorted. The
list is price-sorted only after the explicit sort run_bot performs each
tick (and those inside the rotation branches), after which it is
ascending by price. -/
theorem create_order_appends (env : CreateEnv)
    (active_orders : List Order) (count : Nat) (profit : ℚ)
    (order_type : String) :
    ((create_new_order env active_orders count profit order_type).1 =
        active_orders ∨
      ∃ o, (create_new_order env active_orders count profit
          order_type).1 = active_orders ++ [o]) ∧
    List.Pairwise (fun a b : Order => a.price ≤ b.price)
      (sortByPrice
        (create_new_order env active_orders count profit order_type).1) := by
  constructor
  · unfold create_new_order
    split
    · exact Or.inl rfl
    · cases env.buy_result with
      | none => exact Or.inl rfl
      | some pr =>
          obtain ⟨ba, abp⟩ := pr
          cases henv : env.sell_id with
          | none => simp [henv]
          | some sid => simp [henv]
  · exact sorted_sortByPrice _

/-- C8 witness: a concrete pass where the only poll fails keeps that
order in the surviving set. -/
theorem poll_failed_kept_still_open_witness :
    ((⟨5, 2, 9, 8, "autobay"⟩ : Order), (none : Option OrderStatus)) ∈
        [((⟨5, 2, 9, 8, "autobay"⟩ : Order),
          (none : Option OrderStatus))] ∧
      ((⟨5, 2, 9, 8, "autobay"⟩ : Order) ∈
          (partitionResults [((⟨5, 2, 9, 8, "autobay"⟩ : Order),
            (none : Option OrderStatus))]).updated ∧
        (∀ x ∈ (partitionResults [((⟨5, 2, 9, 8, "autobay"⟩ : Order),
            (none : Option OrderStatus))]).closedOrders,
          ∃ r ∈ [((⟨5, 2, 9, 8, "autobay"⟩ : Order),
              (none : Option OrderStatus))],
            r.1 = x ∧ r.2 = some OrderStatus.closed) ∧
        (∀ x ∈ (partitionResults [((⟨5, 2, 9, 8, "autobay"⟩ : Order),
            (none : Option OrderStatus))]).canceledOrders,
          ∃ r ∈ [((⟨5, 2, 9, 8, "autobay"⟩ : Order),
              (none : Option OrderStatus))],
            r.1 = x ∧ r.2 = some OrderStatus.canceled)) :=
  ⟨by decide,
   poll_failed_kept_still_open
     [((⟨5, 2, 9, 8, "autobay"⟩ : Order), (none : Option OrderStatus))]
     ⟨5, 2, 9, 8, "autobay"⟩ (by decide)⟩

end KasBot
